import Mathlib

/-!
Verification development for the voice-copilot repository
(`voice_transcriber` package).  The definitions below are a shallow
embedding, translated from the Python sources:

* `config.py`            → `Config`, `config`
* `audio_recorder.py`    → `Recorder`, `startRecording`, `stopRecording`, `recordTick`
* `service.py`           → `Service`, `onHotkeyPress`, `onHotkeyRelease`
* `transcriber.py`       → `Transcriber`, `ensureModelLoaded`, `modelUnloaderTick`, `transcribe`
* `text_to_speech.py`    → `TTS`, `cleanText`, `speakText`, `speakSelectedText`, `stopSpeech`
* `hotkey_handler.py`    → `HotkeyState`, `onKeyPress`, `onKeyRelease`, event traces

Python `float` timestamps (`time.time()` values and durations) are
modelled as integers counting milliseconds (`ℤ`); the configured
durations 0.5 s, 30 s and 300 s become the exact constants 500, 30000
and 300000.  The code only ever subtracts and compares times, so this
order-preserving rescaling is faithful.  Python strings are modelled as
`List Char`.  Audio frames (numpy arrays) are modelled as `List Int`
(a frame's samples); saving the finalized recording to a temporary WAV
file is modelled as returning the concatenated frame data.
-/

namespace VoiceCopilot

/-- Embeds `config.py` (`Config` dataclass): only the fields the claims
depend on.  `min_recording_duration` = 0.5 s = 500 ms, `max_recording_duration`
= 30 s = 30000 ms, record hotkey `ctrl+f1`, TTS hotkey `ctrl+f2`. -/
structure Config where
  hotkey : List String
  tts_hotkey : List String
  min_recording_duration : ℤ
  max_recording_duration : ℤ
deriving DecidableEq

/-- The global `config` instance with the dataclass defaults. -/
def config : Config :=
  { hotkey := ["ctrl", "f1"]
    tts_hotkey := ["ctrl", "f2"]
    min_recording_duration := 500
    max_recording_duration := 30000 }

/-! ### Audio recorder (`audio_recorder.py`) -/

/-- State of `AudioRecorder`: the `is_recording` flag, the list of
captured frames (`audio_data`), and `start_time`. -/
structure Recorder where
  is_recording : Bool
  audio_data : List (List Int)
  start_time : ℤ
deriving DecidableEq

/-- `AudioRecorder.start_recording` at wall-clock time `now`: refuses
(returns `false`) if already recording, otherwise clears the frame list,
stamps `start_time` and flips `is_recording` on. -/
def startRecording (now : ℤ) (r : Recorder) : Recorder × Bool :=
  if r.is_recording then (r, false)
  else ({ is_recording := true, audio_data := [], start_time := now }, true)

/-- `AudioRecorder.stop_recording` at wall-clock time `now`.  Returns the
finalized audio (`some` of the concatenated frames, standing for the
temporary WAV file the Python code writes) or `none` when there is no
output: not recording, the session is shorter than
`min_recording_duration`, or zero frames were captured. -/
def stopRecording (now : ℤ) (r : Recorder) : Recorder × Option (List Int) :=
  if !r.is_recording then (r, none)
  else
    let r' := { r with is_recording := false }
    let duration := now - r.start_time
    if duration < config.min_recording_duration then (r', none)
    else if r.audio_data.isEmpty then (r', none)
    else (r', some r.audio_data.flatten)

/-- One iteration of the `AudioRecorder._record_audio` loop, at tick time
`now`, with `arriving` the frames pushed by the sounddevice callback
during the 100 ms sleep of this iteration.  The boolean is the loop's
liveness: `false` models the loop having exited (the `with
sd.InputStream` block closed, so the callback can no longer append).
The loop first tests `while self.is_recording`, sleeps (frames arrive),
then breaks when `time.time() - start_time > max_recording_duration`. -/
def recordTick (r : Recorder) (live : Bool) (now : ℤ) (arriving : List (List Int)) :
    Recorder × Bool :=
  if !live then (r, false)
  else if !r.is_recording then (r, false)
  else
    let r' := { r with audio_data := r.audio_data ++ arriving }
    if now - r.start_time > config.max_recording_duration then (r', false)
    else (r', true)

/-! ### Service orchestrator (`service.py`) -/

/-- State of `VoiceTranscriberService`: the `is_running` and
`is_processing` flags plus the owned recorder. -/
structure Service where
  is_running : Bool
  is_processing : Bool
  recorder : Recorder
deriving DecidableEq

/-- `VoiceTranscriberService._on_hotkey_press` at time `now`: returns
immediately when the service is not running **or a transcription is in
flight** (`if not self.is_running or self.is_processing: return`);
otherwise starts a recording. -/
def onHotkeyPress (now : ℤ) (s : Service) : Service :=
  if !s.is_running || s.is_processing then s
  else
    let r := startRecording now s.recorder
    { s with recorder := r.1 }

/-- `VoiceTranscriberService._on_hotkey_release` at time `now`: returns
the updated service state together with the audio handed to the spawned
`_process_audio` transcription thread (`none` when no thread is
spawned). -/
def onHotkeyRelease (now : ℤ) (s : Service) : Service × Option (List Int) :=
  if !s.is_running || !s.recorder.is_recording then (s, none)
  else
    let r := stopRecording now s.recorder
    match r.2 with
    | some audio => ({ s with recorder := r.1 }, some audio)
    | none => ({ s with recorder := r.1 }, none)

/-! ### Transcriber (`transcriber.py`) -/

/-- Opaque handle standing for a loaded Whisper model instance. -/
abbrev WhisperModel : Type := Nat

/-- State of `Transcriber`: `self.model` (the lazily loaded handle, `None`
when absent) and `self.last_used`.  The `model_lock` serializes the
operations below; each operation is modelled as one atomic step. -/
structure Transcriber where
  model : Option WhisperModel
  last_used : ℤ

/-- `Transcriber._ensure_model_loaded`.  `loadResult` is the outcome of
the external `whisper.load_model` call (an opaque collaborator):
`.ok m` when construction succeeds, `.error ()` when it raises.  If a
model is already present nothing is loaded; otherwise a successful
construction stores the instance and returns `true`, and a failed one
leaves the state absent and returns `false`. -/
def ensureModelLoaded (loadResult : Except Unit WhisperModel) (t : Transcriber) :
    Transcriber × Bool :=
  match t.model with
  | some _ => (t, true)
  | none =>
    match loadResult with
    | .ok m => ({ t with model := some m }, true)
    | .error _ => (t, false)

/-- One wake-up of the `Transcriber._model_unloader` background loop
(the loop sleeps 30 s between wake-ups): under the lock, if a model is
present, `last_used > 0`, and more than 300 s (300000 ms) have passed
since `last_used`, the instance is discarded and `last_used` reset. -/
def modelUnloaderTick (now : ℤ) (t : Transcriber) : Transcriber :=
  if t.model.isSome && decide (t.last_used > 0) &&
      decide (now - t.last_used > 300000) then
    { model := none, last_used := 0 }
  else t

/-- `Transcriber.is_model_loaded`. -/
def isModelLoaded (t : Transcriber) : Bool :=
  t.model.isSome

/-- Python `str.isspace`-style whitespace recognized by `str.split()` and
`str.strip()` (space, tab, newline, carriage return, vertical tab, form
feed). -/
def isPySpace (c : Char) : Bool :=
  c == ' ' || c == '\t' || c == '\n' || c == '\x0d' || c == '\x0b' || c == '\x0c'

/-- Python `str.strip()`: drop leading and trailing whitespace. -/
def pyStrip (s : List Char) : List Char :=
  ((s.dropWhile isPySpace).reverse.dropWhile isPySpace).reverse

/-- Helper for `pySplit`: accumulates the current word (reversed). -/
def pySplitAux : List Char → List Char → List (List Char)
  | [], acc => if acc.isEmpty then [] else [acc.reverse]
  | c :: rest, acc =>
    if isPySpace c then
      if acc.isEmpty then pySplitAux rest []
      else acc.reverse :: pySplitAux rest []
    else pySplitAux rest (c :: acc)

/-- Python `str.split()` with no argument: split on runs of whitespace,
discarding empty pieces. -/
def pySplit (s : List Char) : List (List Char) :=
  pySplitAux s []

/-- Python `" ".join(ws)`. -/
def joinSpace (ws : List (List Char)) : List Char :=
  List.intercalate [' '] ws

/-- Does `s` start with `pat`? -/
def matchesAt : List Char → List Char → Bool
  | [], _ => true
  | _ :: _, [] => false
  | p :: ps, c :: cs => p == c && matchesAt ps cs

/-- Fuel-indexed scanner for `pyReplace`: left-to-right, non-overlapping
replacement of `pat` by `repl`, one consumed character per fuel unit at
minimum. -/
def pyReplaceAux (pat repl : List Char) : Nat → List Char → List Char
  | 0, s => s
  | _ + 1, [] => []
  | fuel + 1, c :: rest =>
    if matchesAt pat (c :: rest) then
      repl ++ pyReplaceAux pat repl fuel ((c :: rest).drop pat.length)
    else c :: pyReplaceAux pat repl fuel rest

/-- Python `s.replace(pat, repl)` for non-empty `pat` (every pattern the
source passes is non-empty): leftmost, non-overlapping. -/
def pyReplace (s pat repl : List Char) : List Char :=
  if pat.isEmpty then s else pyReplaceAux pat repl s.length s

/-- Does `s` contain `pat` as a contiguous substring (Python `pat in s`)? -/
def hasSub (pat : List Char) : List Char → Bool
  | [] => pat.isEmpty
  | c :: rest => matchesAt pat (c :: rest) || hasSub pat rest

/-- The symbol-to-spoken-word table of `TextToSpeech._clean_text`, in
source order.  Every key is a single character. -/
def cleanReplacements : List (Char × List Char) :=
  [ ('&', ("and").toList), ('@', ("at").toList), ('#', ("hash").toList),
    ('$', ("dollar").toList), ('%', ("percent").toList), ('^', ("caret").toList),
    ('*', ("asterisk").toList), ('+', ("plus").toList), ('=', ("equals").toList),
    ('<', ("less than").toList), ('>', ("greater than").toList),
    ('|', ("pipe").toList), ('\\', ("backslash").toList), ('/', ("slash").toList),
    ('~', ("tilde").toList), ('`', ("backtick").toList),
    ('©', ("copyright").toList), ('®', ("registered").toList),
    ('™', ("trademark").toList), ('°', ("degrees").toList),
    ('€', ("euro").toList), ('£', ("pound").toList), ('¥', ("yen").toList),
    ('₹', ("rupee").toList), ('—', (" ").toList), ('–', (" ").toList),
    ('…', (" dot dot dot ").toList), ('→', ("arrow").toList),
    ('←', ("left arrow").toList), ('↑', ("up arrow").toList),
    ('↓', ("down arrow").toList), ('✓', ("checkmark").toList),
    ('✗', ("x mark").toList), ('★', ("star").toList), ('♥', ("heart").toList),
    ('♦', ("diamond").toList), ('♣', ("club").toList), ('♠', ("spade").toList) ]

/-- The markdown-stripping passes of `_clean_text`, in source order. -/
def markdownStrips : List (List Char) :=
  [("**").toList, ("*").toList, ("__").toList, ("_").toList,
   ("```").toList, ("`").toList, ("##").toList, ("#").toList]

/-- `TextToSpeech._clean_text`, pass for pass: whitespace normalization,
the symbol table, URL scheme stripping (guarded by `"http" in
text.lower()`), the per-word email rewrite (guarded by `"@" in text and
"." in text`), markdown stripping, a final whitespace normalization and
strip. -/
def cleanText (text : List Char) : List Char :=
  if text.isEmpty then []
  else
    let t1 := joinSpace (pySplit text)
    let t2 := cleanReplacements.foldl (fun t pr => pyReplace t [pr.1] pr.2) t1
    let t3 :=
      if hasSub (("http").toList) (t2.map Char.toLower) then
        pyReplace (pyReplace (pyReplace t2 (("https://").toList) [])
          (("http://").toList) []) (("www.").toList) []
      else t2
    let t4 :=
      if t3.contains '@' && t3.contains '.' then
        joinSpace ((pySplit t3).map fun w =>
          if w.contains '@' && w.contains '.' then
            pyReplace (pyReplace w [('@')] ((" at ").toList)) [('.')] ((" dot ").toList)
          else w)
      else t3
    let t5 := markdownStrips.foldl (fun t pat => pyReplace t pat []) t4
    pyStrip (joinSpace (pySplit t5))

/-! ### Text-to-speech (`text_to_speech.py`) -/

/-- State of `TextToSpeech`: the `is_speaking` and `stop_requested`
flags, and `mixerBusy` modelling `pygame.mixer.music.get_busy()` (audio
output currently playing). -/
structure TTS where
  is_speaking : Bool
  stop_requested : Bool
  mixerBusy : Bool
deriving DecidableEq

/-- `TextToSpeech.stop_speech`: if speaking, request a stop and stop the
pygame mixer when it is busy (the worker thread is then joined). -/
def stopSpeech (t : TTS) : TTS :=
  if t.is_speaking then
    let t1 := { t with stop_requested := true }
    if t1.mixerBusy then { t1 with mixerBusy := false } else t1
  else t

/-- `TextToSpeech.speak_text`: bail out on empty/whitespace-only input,
stop any current speech, clean the text, bail out if cleaning emptied it,
truncate cleaned text longer than 500 characters to its first 497
characters plus `"..."`, then start the worker thread.  The second
component is the text handed to the `_speech_worker` thread — and from
there verbatim to the `edge_tts` synthesis engine — or `none` when no
job is started. -/
def speakText (t : TTS) (text : List Char) : TTS × Option (List Char) :=
  if text.isEmpty || (pyStrip text).isEmpty then (t, none)
  else
    let t1 := stopSpeech t
    let cleaned := cleanText text
    if cleaned.isEmpty then (t1, none)
    else
      let finalText :=
        if cleaned.length > 500 then cleaned.take 497 ++ ("...").toList
        else cleaned
      ({ t1 with is_speaking := true, stop_requested := false }, some finalText)

/-- `TextToSpeech.speak_selected_text`: `selected` is the result of the
`get_selected_text` clipboard collaborator (`none`/empty means nothing
selected).  With text selected while already speaking, the current
speech is stopped and **no** new job is started; with text selected
while idle, the text is cleaned and handed to `speak_text`; with nothing
selected, current speech is stopped.  The second component is the text
handed to the synthesis worker, as in `speakText`. -/
def speakSelectedText (selected : Option (List Char)) (t : TTS) :
    TTS × Option (List Char) :=
  match selected with
  | some s =>
    if s.isEmpty then (stopSpeech t, none)
    else if t.is_speaking then (stopSpeech t, none)
    else
      let cleaned := cleanText s
      if cleaned.isEmpty then (t, none)
      else speakText t cleaned
  | none => (stopSpeech t, none)

/-- `Transcriber.transcribe`: ensure the model is loaded (propagating
`none` on load failure), stamp `last_used`, run the engine (the external
`model.transcribe` call, whose raw text output is the `engineText`
parameter), strip it, and return `none` for empty results. -/
def transcribe (loadResult : Except Unit WhisperModel) (now : ℤ)
    (engineText : List Char) (t : Transcriber) : Transcriber × Option (List Char) :=
  let r := ensureModelLoaded loadResult t
  if !r.2 then (r.1, none)
  else
    let t2 := { r.1 with last_used := now }
    let text := pyStrip engineText
    (t2, if text.isEmpty then none else some text)

/-! ### Hotkey handler (`hotkey_handler.py`)

Key events reach `_on_key_press` / `_on_key_release` already normalized
by `_get_key_name` (`ctrl_l`/`ctrl_r` → `ctrl`, characters lowercased);
a key the normalization cannot map is `none` and is ignored by both
handlers (`if key_name:`). -/

/-- State of `HotkeyHandler` as far as the key handlers touch it:
`pressed_keys`, the two `hotkey_states` flags, and `last_tts_trigger`. -/
structure HotkeyState where
  pressed : List String
  recordActive : Bool
  ttsActive : Bool
  lastTtsTrigger : ℤ
deriving DecidableEq

/-- `HotkeyHandler.__init__`: no key pressed, both chords inactive,
`last_tts_trigger = 0`. -/
def initHotkeyState : HotkeyState :=
  { pressed := [], recordActive := false, ttsActive := false, lastTtsTrigger := 0 }

/-- `self.tts_debounce_time` (0.5 s = 500 ms). -/
def ttsDebounceTime : ℤ := 500

/-- The two configured chords. -/
inductive Chord where
  | record
  | tts
deriving DecidableEq

/-- The key-set of a chord (`config.hotkey` / `config.tts_hotkey`). -/
def chordKeys : Chord → List String
  | .record => config.hotkey
  | .tts => config.tts_hotkey

/-- `_is_record_hotkey_pressed` / `_is_tts_hotkey_pressed`: is the
chord's key-set a subset of the currently pressed keys? -/
def chordPressed (c : Chord) (pressed : List String) : Bool :=
  decide (∀ k ∈ chordKeys c, k ∈ pressed)

/-- The `hotkey_states[...]` flag of a chord. -/
def chordActive (s : HotkeyState) : Chord → Bool
  | .record => s.recordActive
  | .tts => s.ttsActive

/-- Result of a key-press event: the new handler state and which chord
callback (if any) fired on this event. -/
structure PressResult where
  state : HotkeyState
  firedRecord : Bool
  firedTts : Bool
deriving DecidableEq

/-- `HotkeyHandler._on_key_press` at time `now` (only the TTS debounce
reads the clock).  An unmapped key (`none`) is ignored.  Otherwise the
key joins `pressed_keys`; if the record chord is fully pressed and was
inactive it activates and its callback fires; **`elif`** the TTS chord
is fully pressed and was inactive, it activates and fires only outside
the debounce window (`now - last_tts_trigger > tts_debounce_time`),
updating `last_tts_trigger`. -/
def onKeyPress (key : Option String) (now : ℤ) (s : HotkeyState) : PressResult :=
  match key with
  | none => ⟨s, false, false⟩
  | some k =>
    let pressed := s.pressed.insert k
    if chordPressed .record pressed && !s.recordActive then
      ⟨{ s with pressed := pressed, recordActive := true }, true, false⟩
    else if chordPressed .tts pressed && !s.ttsActive then
      if now - s.lastTtsTrigger > ttsDebounceTime then
        ⟨{ s with pressed := pressed, ttsActive := true, lastTtsTrigger := now },
          false, true⟩
      else ⟨{ s with pressed := pressed }, false, false⟩
    else ⟨{ s with pressed := pressed }, false, false⟩

/-- Result of a key-release event: the new handler state and whether the
record-release callback fired. -/
structure ReleaseResult where
  state : HotkeyState
  firedRelease : Bool
deriving DecidableEq

/-- `HotkeyHandler._on_key_release`: an unmapped key is ignored;
otherwise the key is discarded from `pressed_keys`, both chord flags are
recomputed as plain subset checks, and the record-release callback fires
when the record flag just flipped from active to inactive. -/
def onKeyRelease (key : Option String) (s : HotkeyState) : ReleaseResult :=
  match key with
  | none => ⟨s, false⟩
  | some k =>
    let wasRecord := s.recordActive
    let pressed := s.pressed.filter fun x => x != k
    let recordActive := chordPressed .record pressed
    let ttsActive := chordPressed .tts pressed
    ⟨{ pressed := pressed, recordActive := recordActive, ttsActive := ttsActive,
        lastTtsTrigger := s.lastTtsTrigger }, wasRecord && !recordActive⟩

/-- A raw key event as delivered by the listener (already normalized by
`_get_key_name`; release events never read the clock). -/
inductive KeyEvent where
  | press (key : Option String) (now : ℤ)
  | release (key : Option String)
deriving DecidableEq

/-- The handler state after one event. -/
def stepState (s : HotkeyState) (e : KeyEvent) : HotkeyState :=
  match e with
  | .press k now => (onKeyPress k now s).state
  | .release k => (onKeyRelease k s).state

/-- Did chord `c`'s activation callback fire when event `e` hit state
`s`?  Only press events can fire an activation. -/
def firedAt (s : HotkeyState) (e : KeyEvent) (c : Chord) : Bool :=
  match e with
  | .press k now =>
    match c with
    | .record => (onKeyPress k now s).firedRecord
    | .tts => (onKeyPress k now s).firedTts
  | .release _ => false

/-- The handler state after the first `n` events of a trace, starting
from the freshly constructed handler. -/
def stateAt (events : List KeyEvent) (n : Nat) : HotkeyState :=
  (events.take n).foldl stepState initHotkeyState

/-- Does chord `c`'s activation callback fire on event number `n` of the
trace? -/
def chordFires (events : List KeyEvent) (n : Nat) (c : Chord) : Bool :=
  match events[n]? with
  | some e => firedAt (stateAt events n) e c
  | none => false

/-- Structural invariant of the handler: whenever a chord's
`hotkey_states` flag is set, the chord's whole key-set is still in
`pressed_keys`.  (Presses only ever add keys, and every release
recomputes the flags as subset checks.) -/
def ChordInv (s : HotkeyState) : Prop :=
  ∀ c, chordActive s c = true → chordPressed c s.pressed = true

/-! ## Claim theorems -/

/-- C1 (counterexample): the claim says that whenever the service is
running and a transcription is being processed, the record-chord press
handler still starts a new capture.  At the concrete state below —
running, `is_processing = true`, recorder idle — `_on_hotkey_press`
returns without touching the recorder: no capture starts, refuting the
claim. -/
theorem c1_counterexample :
    onHotkeyPress 5 ⟨true, true, ⟨false, [], 0⟩⟩ = ⟨true, true, ⟨false, [], 0⟩⟩ ∧
    (onHotkeyPress 5 ⟨true, true, ⟨false, [], 0⟩⟩).recorder.is_recording = false := by
  constructor <;> rfl

/-- C1 (amended): `is_processing` is a gate on starting a recording:
whenever a transcription is in flight, a record-chord press is ignored —
`_on_hotkey_press` returns immediately and the service state (recorder
included) is unchanged. -/
theorem c1_processing_gates_press (now : ℤ) (s : Service)
    (h : s.is_processing = true) : onHotkeyPress now s = s := by
  simp [onHotkeyPress, h]

/-- C1 witness: the amended theorem at a concrete in-flight state. -/
theorem c1_processing_gates_press_witness :
    onHotkeyPress 5 ⟨true, true, ⟨false, [], 0⟩⟩ = ⟨true, true, ⟨false, [], 0⟩⟩ :=
  c1_processing_gates_press 5 _ rfl

/-- C2: whenever a Speak job is active (`is_speaking`) and the speak
trigger fires with some (non-empty) text selected, the trigger only
cancels the active job — `stop_requested` is raised, the audio output
(pygame mixer) is stopped — and hands no text to a new synthesis job. -/
theorem c2_speak_while_speaking_cancels (t : TTS) (s : List Char)
    (hs : s.isEmpty = false) (h : t.is_speaking = true) :
    speakSelectedText (some s) t = (stopSpeech t, none) ∧
    (stopSpeech t).stop_requested = true ∧
    (stopSpeech t).mixerBusy = false := by
  refine ⟨?_, ?_, ?_⟩
  · simp [speakSelectedText, hs, h]
  · simp only [stopSpeech, h, if_true]
    split <;> rfl
  · simp only [stopSpeech, h, if_true]
    by_cases hb : t.mixerBusy <;> simp [hb]

/-- C2 witness: concrete speaking state with mixer busy and text
selected. -/
theorem c2_speak_while_speaking_cancels_witness :
    speakSelectedText (some ('x' :: [])) ⟨true, false, true⟩ =
      (stopSpeech ⟨true, false, true⟩, none) ∧
    (stopSpeech (⟨true, false, true⟩ : TTS)).stop_requested = true ∧
    (stopSpeech (⟨true, false, true⟩ : TTS)).mixerBusy = false :=
  c2_speak_while_speaking_cancels _ ('x' :: []) rfl rfl

/-- C3: in any capture cycle (service running, recorder recording), if
the stop comes before `min_recording_duration` has elapsed or zero
frames were captured, `stop_recording` returns `None` and
`_on_hotkey_release` spawns no transcription job. -/
theorem c3_short_capture_discarded (now : ℤ) (s : Service)
    (hrun : s.is_running = true) (hrec : s.recorder.is_recording = true)
    (hshort : now - s.recorder.start_time < config.min_recording_duration ∨
      s.recorder.audio_data = []) :
    (stopRecording now s.recorder).2 = none ∧
    (onHotkeyRelease now s).2 = none := by
  have hstop : (stopRecording now s.recorder).2 = none := by
    rcases hshort with hd | he
    · simp [stopRecording, hrec, hd]
    · simp [stopRecording, hrec, he]
  have hrel : (onHotkeyRelease now s).2 = none := by
    simp [onHotkeyRelease, hrun, hrec, hstop]
  exact ⟨hstop, hrel⟩

/-- C3 witness: a 100 ms capture with no frames, stopped: no output, no
job. -/
theorem c3_short_capture_discarded_witness :
    (stopRecording 100 (⟨true, [], 0⟩ : Recorder)).2 = none ∧
    (onHotkeyRelease 100 ⟨true, false, ⟨true, [], 0⟩⟩).2 = none :=
  c3_short_capture_discarded 100 ⟨true, false, ⟨true, [], 0⟩⟩ rfl rfl
    (Or.inl (by decide))

/-- C4: whenever the recording loop is live and the elapsed time since
`start_time` exceeds `max_recording_duration` (30 s), the loop iteration
ends the capture without any user stop action (the loop breaks and the
input stream closes), and once the loop is no longer live, iterations
append no further frames. -/
theorem c4_max_duration_forces_finalize (r : Recorder) (now : ℤ)
    (arriving : List (List Int)) (hrec : r.is_recording = true)
    (hmax : now - r.start_time > config.max_recording_duration) :
    (recordTick r true now arriving).2 = false ∧
    ∀ (r' : Recorder) (now' : ℤ) (arriving' : List (List Int)),
      recordTick r' false now' arriving' = (r', false) := by
  constructor
  · simp [recordTick, hrec, hmax]
  · intro r' now' arriving'
    simp [recordTick]

/-- C4 witness: a capture started at time 0 whose loop ticks at
30.001 s. -/
theorem c4_max_duration_forces_finalize_witness :
    (recordTick ⟨true, [], 0⟩ true 30001 (([1] : List Int) :: [])).2 = false ∧
    ∀ (r' : Recorder) (now' : ℤ) (arriving' : List (List Int)),
      recordTick r' false now' arriving' = (r', false) :=
  c4_max_duration_forces_finalize ⟨true, [], 0⟩ 30001 _ rfl (by decide)

/-- C8: when model construction fails during an acquire, the handle
stays absent, the failure is surfaced (`_ensure_model_loaded` returns
`false` and `transcribe` returns `None`), and the failure is not cached:
the next acquire retries construction and succeeds. -/
theorem c8_load_failure_not_cached (t : Transcriber) (m : WhisperModel)
    (now : ℤ) (engineText : List Char) (h : t.model = none) :
    (ensureModelLoaded (.error ()) t).2 = false ∧
    (ensureModelLoaded (.error ()) t).1.model = none ∧
    (transcribe (.error ()) now engineText t).2 = none ∧
    (ensureModelLoaded (.ok m) (ensureModelLoaded (.error ()) t).1).2 = true ∧
    (ensureModelLoaded (.ok m) (ensureModelLoaded (.error ()) t).1).1.model = some m := by
  obtain ⟨mo, lu⟩ := t
  simp only [Transcriber.mk.injEq] at h ⊢
  subst h
  refine ⟨rfl, rfl, ?_, rfl, rfl⟩
  simp [transcribe, ensureModelLoaded]

/-- C8 witness: a fresh transcriber, failed load, then a successful
retry. -/
theorem c8_load_failure_not_cached_witness :
    (ensureModelLoaded (.error ()) ⟨none, 0⟩).2 = false ∧
    (ensureModelLoaded (.error ()) ⟨none, 0⟩).1.model = none ∧
    (transcribe (.error ()) 5 ('a' :: []) ⟨none, 0⟩).2 = none ∧
    (ensureModelLoaded (.ok 7) (ensureModelLoaded (.error ()) ⟨none, 0⟩).1).2 = true ∧
    (ensureModelLoaded (.ok 7) (ensureModelLoaded (.error ()) ⟨none, 0⟩).1).1.model
      = some 7 :=
  c8_load_failure_not_cached ⟨none, 0⟩ 7 5 ('a' :: []) rfl

/-- C9: once a loaded, previously used model has been idle for longer
than the 300 s threshold, the unloader sweep discards it — the next
status query (`is_model_loaded`) reports it unloaded — and a subsequent
acquire reconstructs the instance and succeeds. -/
theorem c9_idle_unload_then_reload (t : Transcriber) (now : ℤ) (m : WhisperModel)
    (hm : t.model.isSome = true) (hu : t.last_used > 0)
    (hidle : now - t.last_used > 300000) :
    isModelLoaded (modelUnloaderTick now t) = false ∧
    (ensureModelLoaded (.ok m) (modelUnloaderTick now t)).2 = true ∧
    (ensureModelLoaded (.ok m) (modelUnloaderTick now t)).1.model = some m := by
  have htick : modelUnloaderTick now t = ⟨none, 0⟩ := by
    simp [modelUnloaderTick, hm, hu, hidle]
  rw [htick]
  exact ⟨rfl, rfl, rfl⟩

/-- C9 witness: a model last used at t = 10 ms, swept at t = 300011 ms. -/
theorem c9_idle_unload_then_reload_witness :
    isModelLoaded (modelUnloaderTick 300011 ⟨some 3, 10⟩) = false ∧
    (ensureModelLoaded (.ok 4) (modelUnloaderTick 300011 ⟨some 3, 10⟩)).2 = true ∧
    (ensureModelLoaded (.ok 4) (modelUnloaderTick 300011 ⟨some 3, 10⟩)).1.model
      = some 4 :=
  c9_idle_unload_then_reload ⟨some 3, 10⟩ 300011 4 rfl (by decide) (by decide)

/-- C10: whatever text `speak_text` receives, the text it hands to the
synthesis worker is at most 500 characters: it is exactly the first 497
characters of the cleaned text followed by `"..."` when the cleaned text
exceeds 500 characters, and the cleaned text unchanged otherwise. -/
theorem c10_speak_text_truncates (t : TTS) (text res : List Char)
    (h : (speakText t text).2 = some res) :
    res.length ≤ 500 ∧
    (if (cleanText text).length > 500
      then res = (cleanText text).take 497 ++ ("...").toList
      else res = cleanText text) := by
  by_cases h0 : text.isEmpty || (pyStrip text).isEmpty
  · simp [speakText, h0] at h
  by_cases h1 : (cleanText text).isEmpty
  · simp [speakText, h0, h1] at h
  by_cases h2 : (cleanText text).length > 500
  · have hres : res = (cleanText text).take 497 ++ ("...").toList := by
      simp [speakText, h0, h1, h2] at h
      exact h.symm
    refine ⟨?_, by simp [h2, hres]⟩
    have : ((cleanText text).take 497).length = 497 := by
      rw [List.length_take]
      omega
    simp [hres, this]
  · have hres : res = cleanText text := by
      simp [speakText, h0, h1, h2] at h
      exact h.symm
    refine ⟨?_, by simp [h2, hres]⟩
    rw [hres]
    omega

/-- C10 witness: the two-character input `"hi"` passes through
unchanged. -/
theorem c10_speak_text_truncates_witness :
    (('h' :: 'i' :: []) : List Char).length ≤ 500 ∧
    (if (cleanText ('h' :: 'i' :: [])).length > 500
      then ('h' :: 'i' :: []) = (cleanText ('h' :: 'i' :: [])).take 497 ++ ("...").toList
      else ('h' :: 'i' :: []) = cleanText ('h' :: 'i' :: [])) :=
  c10_speak_text_truncates ⟨false, false, false⟩ ('h' :: 'i' :: [])
    ('h' :: 'i' :: []) (by rfl)

/-- C6: the debounce window is specific to the speak (TTS) chord.  For
any key-press at time `now` with `now - last_tts_trigger` inside the
500 ms window, the TTS callback does not fire and `last_tts_trigger` is
left unchanged; and whether the record callback fires is exactly the
key-set condition (record chord fully pressed and previously inactive)
— no clock or debounce state enters it. -/
theorem c6_debounce_applies_to_tts_only (s : HotkeyState) (k : String) (now : ℤ)
    (h : now - s.lastTtsTrigger < ttsDebounceTime) :
    (onKeyPress (some k) now s).firedTts = false ∧
    (onKeyPress (some k) now s).state.lastTtsTrigger = s.lastTtsTrigger ∧
    (onKeyPress (some k) now s).firedRecord =
      (chordPressed .record (s.pressed.insert k) && !s.recordActive) := by
  have hd : ¬ (now - s.lastTtsTrigger > ttsDebounceTime) := by omega
  refine ⟨?_, ?_, ?_⟩ <;>
    · simp only [onKeyPress]
      split_ifs with h1 h2 h3 <;> first | rfl | omega | simp_all

/-- C6 witness: `ctrl` held, `f2` pressed at t = 100 ms with
`last_tts_trigger = 0` — inside the debounce window, so the TTS chord is
suppressed, while the record condition is the pure key-set check. -/
theorem c6_debounce_applies_to_tts_only_witness :
    (onKeyPress (some "f2") 100 ⟨["ctrl"], false, false, 0⟩).firedTts = false ∧
    (onKeyPress (some "f2") 100 ⟨["ctrl"], false, false, 0⟩).state.lastTtsTrigger = 0 ∧
    (onKeyPress (some "f2") 100 ⟨["ctrl"], false, false, 0⟩).firedRecord =
      (chordPressed .record ((["ctrl"] : List String).insert "f2") && !false) :=
  c6_debounce_applies_to_tts_only ⟨["ctrl"], false, false, 0⟩ "f2" 100 (by decide)

/-- C7 (counterexample): with `f1` and `f2` already held, the key-down
of `ctrl` at t = 1000 ms simultaneously completes both chords (both
key-sets become subsets of the pressed set, both chords previously
inactive, and the press is outside the debounce window) — yet only the
record callback fires; the TTS callback is skipped, refuting the claim
that both fire independently. -/
theorem c7_counterexample :
    chordPressed .record ((["f2", "f1"] : List String).insert "ctrl") = true ∧
    chordPressed .tts ((["f2", "f1"] : List String).insert "ctrl") = true ∧
    ((1000 : ℤ) - 0 > ttsDebounceTime) ∧
    (onKeyPress (some "ctrl") 1000 ⟨["f2", "f1"], false, false, 0⟩).firedRecord = true ∧
    (onKeyPress (some "ctrl") 1000 ⟨["f2", "f1"], false, false, 0⟩).firedTts = false := by
  refine ⟨by decide, by decide, by decide, by decide, by decide⟩

/-- C7 (amended): when a single key-down completes the record chord
(previously inactive), the record callback fires and the TTS callback
does not fire on that event, whatever the TTS chord's state — the
detector checks the speak chord only in the `elif` branch, so the record
chord takes priority on that event. -/
theorem c7_record_chord_takes_priority (s : HotkeyState) (k : String) (now : ℤ)
    (hrec : chordPressed .record (s.pressed.insert k) = true)
    (hact : s.recordActive = false) :
    (onKeyPress (some k) now s).firedRecord = true ∧
    (onKeyPress (some k) now s).firedTts = false := by
  constructor <;> simp [onKeyPress, hrec, hact]

/-- C7 witness: the amended theorem on the counterexample scenario
(`f1`, `f2` held, `ctrl` pressed). -/
theorem c7_record_chord_takes_priority_witness :
    (onKeyPress (some "ctrl") 1000 ⟨["f2", "f1"], false, false, 0⟩).firedRecord = true ∧
    (onKeyPress (some "ctrl") 1000 ⟨["f2", "f1"], false, false, 0⟩).firedTts = false :=
  c7_record_chord_takes_priority ⟨["f2", "f1"], false, false, 0⟩ "ctrl" 1000
    (by decide) rfl

/-! ### Chord-detector lemmas (towards C5) -/

/-- `chordPressed` in terms of membership. -/
theorem chordPressed_iff {c : Chord} {p : List String} :
    chordPressed c p = true ↔ ∀ k ∈ chordKeys c, k ∈ p := by
  simp [chordPressed]

/-- Adding a key to the pressed set preserves a chord's subset check. -/
theorem chordPressed_insert {c : Chord} {p : List String} {k : String}
    (h : chordPressed c p = true) : chordPressed c (p.insert k) = true := by
  rw [chordPressed_iff] at h ⊢
  intro x hx
  exact List.mem_insert_iff.mpr (Or.inr (h x hx))

/-- The freshly constructed handler satisfies the invariant. -/
theorem chordInv_init : ChordInv initHotkeyState := by
  intro c h
  cases c <;> simp [initHotkeyState, chordActive] at h

/-- A key press preserves the invariant. -/
theorem chordInv_press {s : HotkeyState} (k : Option String) (now : ℤ)
    (hinv : ChordInv s) : ChordInv (onKeyPress k now s).state := by
  match k with
  | none => exact hinv
  | some k =>
    simp only [onKeyPress]
    split_ifs with h1 h2 h3 <;>
      · intro c hc
        cases c <;>
          simp only [chordActive] at hc ⊢ <;>
          first
            | (exact chordPressed_insert (hinv _ hc))
            | (first
                | exact (Bool.and_eq_true _ _).mp h1 |>.1
                | exact (Bool.and_eq_true _ _).mp h2 |>.1)

/-- A key release preserves the invariant (the flags are recomputed as
subset checks of the new pressed set). -/
theorem chordInv_release {s : HotkeyState} (k : Option String)
    (hinv : ChordInv s) : ChordInv (onKeyRelease k s).state := by
  match k with
  | none => exact hinv
  | some k =>
    intro c hc
    cases c <;> exact hc

/-- Every event preserves the invariant. -/
theorem chordInv_step {s : HotkeyState} (e : KeyEvent)
    (hinv : ChordInv s) : ChordInv (stepState s e) := by
  cases e with
  | press k now => exact chordInv_press k now hinv
  | release k => exact chordInv_release k hinv

/-- Unfolding one step of a trace. -/
theorem stateAt_succ (events : List KeyEvent) (n : Nat) :
    stateAt events (n + 1) =
      (match events[n]? with
        | some e => stepState (stateAt events n) e
        | none => stateAt events n) := by
  unfold stateAt
  rw [List.take_succ]
  cases h : events[n]? with
  | none => simp [h]
  | some e => simp [h, List.foldl_append]

/-- The invariant holds at every point of every trace. -/
theorem chordInv_stateAt (events : List KeyEvent) (n : Nat) :
    ChordInv (stateAt events n) := by
  induction n with
  | zero => exact chordInv_init
  | succ n ih =>
    rw [stateAt_succ]
    cases h : events[n]? with
    | none => exact ih
    | some e => exact chordInv_step e ih

/-- A key press never deactivates a chord: `_on_key_press` only ever
sets the `hotkey_states` flags. -/
theorem press_preserves_active {s : HotkeyState} {c : Chord}
    (k : Option String) (now : ℤ) (h : chordActive s c = true) :
    chordActive (onKeyPress k now s).state c = true := by
  match k with
  | none => exact h
  | some k =>
    simp only [onKeyPress]
    split_ifs with h1 h2 h3 <;> cases c <;>
      simp only [chordActive] at h ⊢ <;> first | exact h | rfl

/-- An activation callback fires only when the chord's flag was down. -/
theorem fired_prev_false {s : HotkeyState} {e : KeyEvent} {c : Chord}
    (h : firedAt s e c = true) : chordActive s c = false := by
  cases e with
  | release k => simp [firedAt] at h
  | press k now =>
    match k with
    | none => cases c <;> simp [firedAt, onKeyPress] at h
    | some k =>
      cases c <;>
        · simp only [firedAt, onKeyPress] at h
          split_ifs at h with h1 h2 h3 <;>
            simp_all [chordActive]

/-- After an activation callback fires, the chord's flag is up. -/
theorem fired_post_active {s : HotkeyState} {e : KeyEvent} {c : Chord}
    (h : firedAt s e c = true) : chordActive (stepState s e) c = true := by
  cases e with
  | release k => simp [firedAt] at h
  | press k now =>
    match k with
    | none => cases c <;> simp [firedAt, onKeyPress] at h
    | some k =>
      cases c <;>
        · simp only [firedAt, stepState, onKeyPress] at h ⊢
          split_ifs at h ⊢ with h1 h2 h3 <;> simp_all [chordActive]

/-- A chord's flag only flips from up to down on the release of one of
the chord's own keys. -/
theorem active_flip_release {s : HotkeyState} {e : KeyEvent} {c : Chord}
    (hinv : ChordInv s) (h1 : chordActive s c = true)
    (h2 : chordActive (stepState s e) c = false) :
    ∃ key, e = .release (some key) ∧ key ∈ chordKeys c := by
  cases e with
  | press k now =>
    have h2' : chordActive (onKeyPress k now s).state c = false := h2
    exact absurd (press_preserves_active k now h1) (by simp [h2'])
  | release k =>
    match k with
    | none => rw [show stepState s (.release none) = s from rfl] at h2; simp_all
    | some k =>
      refine ⟨k, rfl, ?_⟩
      have hsub : chordPressed c s.pressed = true := hinv c h1
      have hafter : chordPressed c (s.pressed.filter fun x => x != k) = false := by
        cases c <;> exact h2
      rw [chordPressed_iff] at hsub
      by_contra hk
      have : chordPressed c (s.pressed.filter fun x => x != k) = true := by
        rw [chordPressed_iff]
        intro x hx
        refine List.mem_filter.mpr ⟨hsub x hx, ?_⟩
        simp only [bne_iff_ne, ne_eq]
        intro hxk
        exact hk (hxk ▸ hx)
      rw [this] at hafter
      exact absurd hafter (by simp)

/-- Between an up state and a later down state of a chord's flag there is
a step at which it flips down. -/
theorem exists_flip (events : List KeyEvent) (c : Chord) :
    ∀ b a, a ≤ b → chordActive (stateAt events a) c = true →
      chordActive (stateAt events b) c = false →
      ∃ k, a ≤ k ∧ k < b ∧ chordActive (stateAt events k) c = true ∧
        chordActive (stateAt events (k + 1)) c = false := by
  intro b
  induction b with
  | zero =>
    intro a ha h1 h2
    rw [Nat.le_zero.mp ha] at h1
    rw [h1] at h2
    exact absurd h2 (by simp)
  | succ b ih =>
    intro a ha h1 h2
    have hab : a ≤ b := by
      rcases Nat.lt_or_ge a (b + 1) with h | h
      · omega
      · have : a = b + 1 := le_antisymm ha h
        rw [this] at h1
        rw [h1] at h2
        exact absurd h2 (by simp)
    cases hb : chordActive (stateAt events b) c with
    | true => exact ⟨b, hab, Nat.lt_succ_self b, hb, h2⟩
    | false =>
      obtain ⟨k, hk1, hk2, hk3, hk4⟩ := ih a hab h1 hb
      exact ⟨k, hk1, Nat.lt_succ_of_lt hk2, hk3, hk4⟩

/-- C5: a chord activates at most once per contiguous full-press period.
If the same chord's activation callback fires at two trace positions
`i < j`, then strictly between them there is a release event of one of
the chord's own keys, after which the chord's `hotkey_states` flag is
down again. -/
theorem c5_chord_fires_once_per_hold (events : List KeyEvent) (c : Chord)
    (i j : Nat) (hij : i < j) (hi : chordFires events i c = true)
    (hj : chordFires events j c = true) :
    ∃ k key, i < k ∧ k < j ∧ events[k]? = some (.release (some key)) ∧
      key ∈ chordKeys c ∧ chordActive (stateAt events (k + 1)) c = false := by
  have hi' : chordActive (stateAt events (i + 1)) c = true := by
    unfold chordFires at hi
    cases h : events[i]? with
    | none => rw [h] at hi; exact absurd hi (by simp)
    | some e =>
      rw [h] at hi
      rw [stateAt_succ, h]
      exact fired_post_active hi
  have hj' : chordActive (stateAt events j) c = false := by
    unfold chordFires at hj
    cases h : events[j]? with
    | none => rw [h] at hj; exact absurd hj (by simp)
    | some e =>
      rw [h] at hj
      have := fired_prev_false hj
      exact this
  obtain ⟨k, hk1, hk2, hk3, hk4⟩ := exists_flip events c j (i + 1) hij hi' hj'
  cases h : events[k]? with
  | none =>
    rw [stateAt_succ, h] at hk4
    rw [hk3] at hk4
    exact absurd hk4 (by simp)
  | some e =>
    have hstep : chordActive (stepState (stateAt events k) e) c = false := by
      rw [stateAt_succ, h] at hk4
      exact hk4
    obtain ⟨key, hke, hkey⟩ :=
      active_flip_release (chordInv_stateAt events k) hk3 hstep
    refine ⟨k, key, by omega, hk2, ?_, hkey, hk4⟩
    rw [← hke]
    exact h

/-- C5 witness: the trace `press ctrl, press f1, release f1, press f1`
fires the record chord at positions 1 and 3; position 2 is the forced
intermediate release of `f1`. -/
theorem c5_chord_fires_once_per_hold_witness :
    ∃ k key, 1 < k ∧ k < 3 ∧
      ([KeyEvent.press (some "ctrl") 1, KeyEvent.press (some "f1") 2,
        KeyEvent.release (some "f1"), KeyEvent.press (some "f1") 3][k]?
        = some (.release (some key))) ∧
      key ∈ chordKeys .record ∧
      chordActive (stateAt [KeyEvent.press (some "ctrl") 1,
        KeyEvent.press (some "f1") 2, KeyEvent.release (some "f1"),
        KeyEvent.press (some "f1") 3] (k + 1)) .record = false :=
  c5_chord_fires_once_per_hold _ .record 1 3 (by decide) (by decide) (by decide)

end VoiceCopilot
